import Mathlib

/-!
Verification development for the event viewer's acquisition and
normalization pipeline (src/event_log.rs and src/main.rs).

Conventions of the shallow embedding:
- Timestamps (chrono DateTime of the local timezone) are modelled as the
  absolute instant in whole seconds since the UNIX epoch (an Int).  The
  program itself compares timestamps through chrono's timestamp(), i.e. at
  second granularity, so this granularity is faithful to every comparison
  the program performs; sub-second fractions parsed from input are dropped.
- The quick-xml pull reader is an external library; its output is modelled
  as a list of resolved XML tokens (attribute and text values already
  unescaped), ending in an eof token, or cut short by an error token when
  the document is malformed.  Reading past the end of the list behaves
  like the reader at end of input (returns Eof).
- The local timezone database is an external collaborator: where the code
  interprets a naive local date-time (Local.from_local_datetime), the model
  takes a function from naive seconds to an optional instant (some t for
  LocalResult::Single, none for Ambiguous or None).
-/

namespace EventViewer

/-- Absolute instant, whole seconds since the UNIX epoch. -/
abbrev Timestamp := Int

/-! ### Timestamp parsing (chrono collaborations used by the program) -/

def digitVal (c : Char) : Nat := c.toNat - 48

/-- Read exactly n digits, returning their value and the rest. -/
def takeDigitsAux : Nat → Nat → List Char → Option (Nat × List Char)
  | 0, acc, cs => some (acc, cs)
  | _ + 1, _, [] => none
  | n + 1, acc, c :: cs =>
      if c.isDigit then takeDigitsAux n (acc * 10 + digitVal c) cs else none

def takeDigits (n : Nat) (cs : List Char) : Option (Nat × List Char) :=
  takeDigitsAux n 0 cs

/-- Greedily read at most max digits (at least one). -/
def takeSomeDigitsAux : Nat → Nat → List Char → Nat × List Char
  | 0, acc, cs => (acc, cs)
  | _ + 1, acc, [] => (acc, [])
  | n + 1, acc, c :: cs =>
      if c.isDigit then takeSomeDigitsAux n (acc * 10 + digitVal c) cs
      else (acc, c :: cs)

def takeSomeDigits (max : Nat) (cs : List Char) : Option (Nat × List Char) :=
  match cs with
  | c :: _ => if c.isDigit then some (takeSomeDigitsAux max 0 cs) else none
  | [] => none

def expectCh (c : Char) : List Char → Option (List Char)
  | x :: cs => if x = c then some cs else none
  | [] => none

/-- RFC3339 date/time separator accepted by chrono. -/
def sepT : List Char → Option (List Char)
  | 'T' :: cs => some cs
  | 't' :: cs => some cs
  | ' ' :: cs => some cs
  | _ => none

/-- Optional fractional seconds: a dot followed by at least one digit.
The fractional value is dropped (see the second-granularity convention). -/
def skipFraction : List Char → Option (List Char)
  | '.' :: cs =>
      match cs with
      | c :: _ => if c.isDigit then some (cs.dropWhile Char.isDigit) else none
      | [] => none
  | cs => some cs

def isLeap (y : Int) : Bool := (y % 4 = 0 && y % 100 ≠ 0) || y % 400 = 0

def daysInMonth (y : Int) (mo : Nat) : Nat :=
  match mo with
  | 1 => 31
  | 2 => if isLeap y then 29 else 28
  | 3 => 31
  | 4 => 30
  | 5 => 31
  | 6 => 30
  | 7 => 31
  | 8 => 31
  | 9 => 30
  | 10 => 31
  | 11 => 30
  | 12 => 31
  | _ => 0

def validDate (y : Int) (mo d : Nat) : Bool :=
  1 ≤ mo && mo ≤ 12 && 1 ≤ d && d ≤ daysInMonth y mo

/-- Days since 1970-01-01 of the proleptic Gregorian date y-mo-d
(standard civil-from-days arithmetic, as used by chrono's calendar). -/
def daysFromCivil (y : Int) (mo d : Nat) : Int :=
  let yi : Int := if mo ≤ 2 then y - 1 else y
  let era : Int := (if 0 ≤ yi then yi else yi - 399) / 400
  let yoe : Int := yi - era * 400
  let mp : Int := ((mo : Int) + 9) % 12
  let doy : Int := (153 * mp + 2) / 5 + (d : Int) - 1
  let doe : Int := yoe * 365 + yoe / 4 - yoe / 100 + doy
  era * 146097 + doe - 719468

/-- Timezone offset at the end of an RFC3339 string: Z, z, or a signed
hours:minutes pair; yields the offset in seconds. -/
def readOffsetHM (sign : Int) (cs : List Char) : Option (Int × List Char) := do
  let (oh, cs) ← takeDigits 2 cs
  let cs ← expectCh ':' cs
  let (om, cs) ← takeDigits 2 cs
  if oh ≤ 23 && om ≤ 59 then some (sign * ((oh : Int) * 3600 + om * 60), cs)
  else none

def readOffset : List Char → Option (Int × List Char)
  | 'Z' :: cs => some (0, cs)
  | 'z' :: cs => some (0, cs)
  | '+' :: cs => readOffsetHM 1 cs
  | '-' :: cs => readOffsetHM (-1) cs
  | _ => none

/-- Validated calendar date and clock reading to epoch seconds (before the
timezone offset is applied).  A leap second :60 occupies second :59 (chrono
stores the extra second in the nanosecond field). -/
def civilToEpoch (y : Int) (mo d h mi se : Nat) : Option Timestamp :=
  if validDate y mo d && h ≤ 23 && mi ≤ 59 && se ≤ 60 then
    let se := if se = 60 then 59 else se
    some (daysFromCivil y mo d * 86400 + (h : Int) * 3600 + (mi : Int) * 60 + (se : Int))
  else none

/-- Fixed-width full-date of RFC3339: yyyy-mm-dd. -/
def readDate4 (cs : List Char) : Option ((Nat × Nat × Nat) × List Char) := do
  let (y, cs) ← takeDigits 4 cs
  let cs ← expectCh '-' cs
  let (mo, cs) ← takeDigits 2 cs
  let cs ← expectCh '-' cs
  let (d, cs) ← takeDigits 2 cs
  some ((y, mo, d), cs)

/-- Fixed-width partial-time of RFC3339: hh:mm:ss. -/
def readClock (cs : List Char) : Option ((Nat × Nat × Nat) × List Char) := do
  let (h, cs) ← takeDigits 2 cs
  let cs ← expectCh ':' cs
  let (mi, cs) ← takeDigits 2 cs
  let cs ← expectCh ':' cs
  let (se, cs) ← takeDigits 2 cs
  some ((h, mi, se), cs)

/-- chrono DateTime::parse_from_rfc3339, at second granularity: full-date,
separator, partial-time with optional fraction, mandatory offset; validated;
the whole string must be consumed. -/
def rfc3339ToEpoch (s : String) : Option Timestamp := do
  let ((y, mo, d), cs) ← readDate4 s.toList
  let cs ← sepT cs
  let ((h, mi, se), cs) ← readClock cs
  let cs ← skipFraction cs
  let (off, cs) ← readOffset cs
  if cs.isEmpty then
    let t ← civilToEpoch (y : Int) mo d h mi se
    some (t - off)
  else none

/-- Flexible-width date of chrono format "%Y-%m-%d": optionally signed year
of up to six digits, then one or two digits for month and day. -/
def readDateFlex (cs : List Char) : Option ((Int × Nat × Nat) × List Char) := do
  let (neg, cs) :=
    match cs with
    | '-' :: t => (true, t)
    | '+' :: t => (false, t)
    | t => (false, t)
  let (yn, cs) ← takeSomeDigits 6 cs
  let cs ← expectCh '-' cs
  let (mo, cs) ← takeSomeDigits 2 cs
  let cs ← expectCh '-' cs
  let (d, cs) ← takeSomeDigits 2 cs
  some ((if neg then -(yn : Int) else (yn : Int), mo, d), cs)

/-- Flexible-width clock of chrono format "%H:%M:%S": one or two digits
per component. -/
def readClockFlex (cs : List Char) : Option ((Nat × Nat × Nat) × List Char) := do
  let (h, cs) ← takeSomeDigits 2 cs
  let cs ← expectCh ':' cs
  let (mi, cs) ← takeSomeDigits 2 cs
  let cs ← expectCh ':' cs
  let (se, cs) ← takeSomeDigits 2 cs
  some ((h, mi, se), cs)

/-- chrono NaiveDateTime::parse_from_str with format
"%Y-%m-%d %H:%M:%S%.f", at second granularity: the result is in naive
seconds (seconds since the naive epoch, no timezone applied). -/
def naiveParse (s : String) : Option Timestamp := do
  let ((y, mo, d), cs) ← readDateFlex s.toList
  let cs ← expectCh ' ' cs
  let ((h, mi, se), cs) ← readClockFlex cs
  let cs ← skipFraction cs
  if cs.isEmpty then civilToEpoch y mo d h mi se else none

/-! ### The record model and the single-event XML decoder (src/event_log.rs) -/

/-- One resolved pull-parser event from the quick-xml reader.  Attribute and
text values carry the already-unescaped content; errTok stands for a reader
error on a malformed document. -/
inductive XmlToken where
  | startTag (tag : String) (attrs : List (String × String))
  | endTag (tag : String)
  | tText (s : String)
  | tCData (s : String)
  | eofTok
  | errTok
deriving DecidableEq, Repr

/-- The canonical EventRecord of src/event_log.rs. -/
structure EventRecord where
  log_name : String
  time_created : Timestamp
  event_id : Nat
  level : String
  source : String
  user : String
  computer : String
  description : String
  raw_xml : String
deriving DecidableEq, Repr

/-- Rust str::parse::<u16>() with unwrap_or(0): an optional plus sign and at
least one digit fitting in sixteen bits, anything else gives 0. -/
def parseU16 (s : String) : Nat :=
  let cs := s.toList
  let ds := match cs with
    | '+' :: t => t
    | t => t
  if !ds.isEmpty && ds.all Char.isDigit then
    let v := ds.foldl (fun acc c => acc * 10 + digitVal c) 0
    if v ≤ 65535 then v else 0
  else 0

/-- The severity-code mapping in parse_event's Level arm
(src/event_log.rs lines 140-147). -/
def levelLabel (lvl : String) : String :=
  if lvl = "1" then "Critical"
  else if lvl = "2" then "Error"
  else if lvl = "3" then "Warning"
  else if lvl = "4" then "Information"
  else if lvl = "5" then "Verbose"
  else lvl

/-- The record under construction during parse_event's scan.  time_created
is none while the decode-time default has not been overwritten by a
successfully parsed SystemTime attribute; parse_event substitutes the
decode time at the end (the source initializes the field with Local::now()
and overwrites it on a successful parse, which is the same function of the
decode time). -/
structure ScanRec where
  log_name : String
  time_created : Option Timestamp
  event_id : Nat
  level : String
  source : String
  user : String
  computer : String
  description : String
deriving DecidableEq, Repr

def initScanRec : ScanRec :=
  { log_name := "", time_created := none, event_id := 0, level := "",
    source := "", user := "", computer := "", description := "" }

/-- One Provider attribute walk: every attribute named Name overwrites
source (src/event_log.rs lines 122-130). -/
def providerSource (attrs : List (String × String)) (src : String) : String :=
  attrs.foldl (fun s a => if a.1 = "Name" then a.2 else s) src

/-- One TimeCreated attribute walk: every attribute named SystemTime whose
value parses as RFC3339 overwrites the timestamp
(src/event_log.rs lines 150-162). -/
def timeCreatedAttr (attrs : List (String × String)) (t : Option Timestamp) :
    Option Timestamp :=
  attrs.foldl
    (fun t a =>
      if a.1 = "SystemTime" then
        match rfc3339ToEpoch a.2 with
        | some v => some v
        | none => t
      else t)
    t

/-- One Security attribute walk: every attribute named UserID overwrites
user (src/event_log.rs lines 168-176). -/
def securityUser (attrs : List (String × String)) (u : String) : String :=
  attrs.foldl (fun s a => if a.1 = "UserID" then a.2 else s) u

/-- Appending one Data element's text to the description, separated by
"; " when the description is nonempty (src/event_log.rs lines 177-185). -/
def appendData (descr data : String) : String :=
  if descr.isEmpty then descr ++ data else descr ++ "; " ++ data

/-- The forward scan of parse_event (src/event_log.rs lines 119-198).
A start tag of EventID, Level, Computer, Data or Channel makes the loop
read one more event from the reader, which is used only when it is text;
reading at the end of the token list is the reader returning Eof, which
the top of the loop turns into a break. -/
def scanEvent : List XmlToken → ScanRec → ScanRec
  | [], st => st
  | tok :: rest, st =>
    match tok with
    | .eofTok => st
    | .errTok => st
    | .tText _ => scanEvent rest st
    | .tCData _ => scanEvent rest st
    | .endTag _ => scanEvent rest st
    | .startTag tag attrs =>
      if tag = "Provider" then
        scanEvent rest { st with source := providerSource attrs st.source }
      else if tag = "EventID" then
        match rest with
        | .tText s :: rest2 => scanEvent rest2 { st with event_id := parseU16 s }
        | _ :: rest2 => scanEvent rest2 st
        | [] => st
      else if tag = "Level" then
        match rest with
        | .tText s :: rest2 => scanEvent rest2 { st with level := levelLabel s }
        | _ :: rest2 => scanEvent rest2 st
        | [] => st
      else if tag = "TimeCreated" then
        scanEvent rest { st with time_created := timeCreatedAttr attrs st.time_created }
      else if tag = "Computer" then
        match rest with
        | .tText s :: rest2 => scanEvent rest2 { st with computer := s }
        | _ :: rest2 => scanEvent rest2 st
        | [] => st
      else if tag = "Security" then
        scanEvent rest { st with user := securityUser attrs st.user }
      else if tag = "Data" then
        match rest with
        | .tText s :: rest2 =>
            scanEvent rest2 { st with description := appendData st.description s }
        | _ :: rest2 => scanEvent rest2 st
        | [] => st
      else if tag = "Channel" then
        match rest with
        | .tText s :: rest2 => scanEvent rest2 { st with log_name := s }
        | _ :: rest2 => scanEvent rest2 st
        | [] => st
      else
        scanEvent rest st

/-- parse_event of src/event_log.rs: xml is the document text (kept verbatim
in raw_xml), toks the reader's token stream for it, now the decode time
(Local::now() at entry). -/
def parse_event (xml : String) (toks : List XmlToken) (now : Timestamp) :
    Option EventRecord :=
  let st := scanEvent toks initScanRec
  some
    { log_name := st.log_name
      time_created := st.time_created.getD now
      event_id := st.event_id
      level := st.level
      source := st.source
      user := st.user
      computer := st.computer
      description := st.description
      raw_xml := xml }

/-! ### Filter criteria and apply_filters (src/main.rs) -/

/-- Rust str::contains(needle) at worst positions: needle occurs contiguously
in hay. -/
def matchesAt : List Char → List Char → Bool
  | [], _ => true
  | _ :: _, [] => false
  | a :: as, b :: bs => a = b && matchesAt as bs

/-- Rust str::ends_with(pat): the character sequence ends with the
pattern's. -/
def strEndsWith (s pat : String) : Bool :=
  matchesAt pat.toList.reverse s.toList.reverse

def hasSub : List Char → List Char → Bool
  | [], needle => needle.isEmpty
  | hay@(_ :: t), needle => matchesAt needle hay || hasSub t needle

def strContains (hay needle : String) : Bool := hasSub hay.toList needle.toList

/-- The naive local calendar date of an instant, as a day number since the
epoch; tz is the local timezone's offset from UTC in seconds
(chrono's DateTime::date_naive under the Local timezone). -/
def dateNaive (tz : Int) (ts : Timestamp) : Int := (ts + tz).fdiv 86400

/-- The Filters struct of src/main.rs lines 15-25.  NaiveDate bounds are
modelled as local day numbers since the epoch. -/
structure Filters where
  levels : List String
  source : String
  event_id : Option Nat
  user : String
  computer : String
  keyword : String
  date_from : Option Int
  date_to : Option Int
deriving DecidableEq, Repr

/-- Filters::default() of the derived Default instance. -/
def defaultFilters : Filters :=
  { levels := [], source := "", event_id := none, user := "", computer := "",
    keyword := "", date_from := none, date_to := none }

/-- The retain closure of apply_filters (src/main.rs lines 104-113). -/
def passes (tz : Int) (f : Filters) (e : EventRecord) : Bool :=
  (f.levels.isEmpty || f.levels.contains e.level) &&
  (f.source.isEmpty || strContains e.source f.source) &&
  (match f.event_id with
   | none => true
   | some id => e.event_id == id) &&
  (f.user.isEmpty || strContains e.user f.user) &&
  (f.computer.isEmpty || strContains e.computer f.computer) &&
  (f.keyword.isEmpty || strContains e.description f.keyword ||
    strContains e.raw_xml f.keyword) &&
  (match f.date_from with
   | none => true
   | some d => d ≤ dateNaive tz e.time_created) &&
  (match f.date_to with
   | none => true
   | some d => dateNaive tz e.time_created ≤ d)

/-- The comparator of the final sort in apply_filters: sort_by comparing
b.time_created.timestamp() against a.time_created.timestamp(), i.e. most
recent first (src/main.rs line 115). -/
def timeDesc (a b : EventRecord) : Bool := b.time_created ≤ a.time_created

/-- apply_filters of src/main.rs lines 101-117, as the function from the
working set and criteria to the new filtered view (Rust's stable in-place
sort_by is the stable mergeSort). -/
def apply_filters (tz : Int) (f : Filters) (evs : List EventRecord) :
    List EventRecord :=
  (evs.filter (passes tz f)).mergeSort timeDesc

/-! ### The ingestion pipeline state (src/main.rs) -/

/-- The pipeline-relevant fields of EventViewerApp (src/main.rs lines 41-55):
the working set, the derived filtered view, the criteria, the pause flag,
and the contents of the producer-to-consumer channel (queue, oldest first).
Presentation-only fields (sorting toggles, selection, themes) are outside
the model. -/
structure EventViewerApp where
  all_events : List EventRecord
  filtered_events : List EventRecord
  filters : Filters
  paused : Bool
  queue : List EventRecord
deriving DecidableEq, Repr

/-- The drain loop of update_live: each received record is inserted at
index 0 of the working set, oldest drained first (src/main.rs lines 121-123). -/
def drainAll : List EventRecord → List EventRecord → List EventRecord
  | [], all => all
  | e :: q, all => drainAll q (e :: all)

/-- update_live of src/main.rs lines 119-126: a no-op while paused,
otherwise drain every queued record to the front of the working set and
recompute the filtered view. -/
def update_live (tz : Int) (s : EventViewerApp) : EventViewerApp :=
  if s.paused then s
  else
    let all := drainAll s.queue s.all_events
    { s with
      all_events := all
      queue := []
      filtered_events := apply_filters tz s.filters all }

/-- One send burst of the polling thread (src/main.rs lines 64-73): the
queried batch arrives newest first and is sent reversed, so it is appended
to the channel oldest first. -/
def producer_send (evs : List EventRecord) (s : EventViewerApp) : EventViewerApp :=
  { s with queue := s.queue ++ evs.reverse }

/-- A pipeline step taken while the app is paused: either a consumer
refresh tick (update_live) or a producer send burst. -/
def PausedStep (tz : Int) (s s2 : EventViewerApp) : Prop :=
  s.paused = true ∧ (s2 = update_live tz s ∨ ∃ evs, s2 = producer_send evs s)

/-! ### Format importers (src/main.rs import_file, lines 128-310) -/

/-- Rust chars().take(n).collect(): the first n Unicode scalar values. -/
def takeChars (n : Nat) (s : String) : String := String.mk (s.toList.take n)

/-- The record built for one decoded evtx archive entry
(src/main.rs lines 136-146); json is the Debug-formatted text of the
entry's JSON value. -/
def evtxRecord (now : Timestamp) (json : String) : EventRecord :=
  { log_name := "Imported EVTX", time_created := now, event_id := 0,
    level := "Info", source := "Import", user := "", computer := "",
    description := takeChars 200 json, raw_xml := json }

/-- The record built for one well-formed csv row
(src/main.rs lines 294-305). -/
def csvRecord (now : Timestamp) (fields : List String) : EventRecord :=
  let d := String.intercalate ", " fields
  { log_name := "Imported CSV", time_created := now, event_id := 0,
    level := "Info", source := "Import", user := "", computer := "",
    description := takeChars 200 d, raw_xml := d }

/-- The fields record reinitialized at each Event start tag of the XML
importer (src/main.rs lines 160-170 and 177-187). -/
def freshImportFields (now : Timestamp) : EventRecord :=
  { log_name := "Imported XML", time_created := now, event_id := 0,
    level := "", source := "", user := "", computer := "", description := "",
    raw_xml := "" }

/-- Reconstructed attribute text appended after a tag name
(src/main.rs lines 208-216). -/
def attrsText (attrs : List (String × String)) : String :=
  attrs.foldl (fun s a => s ++ " " ++ a.1 ++ "=\"" ++ a.2 ++ "\"") ""

/-- The importer's TimeCreated handling (src/main.rs lines 219-232): the
first SystemTime attribute is parsed as RFC3339, then as the naive local
format; a naive value is resolved through the local timezone (localize),
ambiguous or invalid local times fall back to the UNIX epoch; if both
parses fail the field is left alone. -/
def importTimeAttr (localize : Int → Option Timestamp)
    (attrs : List (String × String)) (t : Timestamp) : Timestamp :=
  match attrs.find? (fun a => a.1 = "SystemTime") with
  | none => t
  | some a =>
    match rfc3339ToEpoch a.2 with
    | some v => v
    | none =>
      match naiveParse a.2 with
      | some n => (localize n).getD 0
      | none => t

/-- The in-flight state of the XML importer's scan loop. -/
structure XScanState where
  in_event : Bool
  event_xml : String
  fields : EventRecord
  out : List EventRecord
deriving DecidableEq, Repr

/-- The scan loop of the XML importer (src/main.rs lines 171-286), with the
source's match arms in order: an Event start tag (re)opens an event; an
Event end tag closes and emits one record whether or not one is open; text
and CData inside an event extend the reconstructed text; any other start
tag inside an event is reconstructed into event_xml and, for the known
tags, read for its typed field (the known tags' text is consumed by that
read and therefore missing from event_xml); other end tags inside an event
are reconstructed; Eof and reader errors break the loop. -/
def xmlImportLoop (localize : Int → Option Timestamp) (now : Timestamp) :
    List XmlToken → XScanState → List EventRecord
  | [], st => st.out
  | tok :: rest, st =>
    match tok with
    | .eofTok => st.out
    | .errTok => st.out
    | .tText s =>
        if st.in_event then
          xmlImportLoop localize now rest { st with event_xml := st.event_xml ++ s }
        else xmlImportLoop localize now rest st
    | .tCData s =>
        if st.in_event then
          xmlImportLoop localize now rest { st with event_xml := st.event_xml ++ s }
        else xmlImportLoop localize now rest st
    | .endTag tag =>
      if tag = "Event" then
        let x := st.event_xml ++ "</Event>"
        xmlImportLoop localize now rest
          { st with
            in_event := false
            event_xml := x
            out := st.out ++ [{ st.fields with raw_xml := x }] }
      else if st.in_event then
        xmlImportLoop localize now rest
          { st with event_xml := st.event_xml ++ "</" ++ tag ++ ">" }
      else xmlImportLoop localize now rest st
    | .startTag tag attrs =>
      if tag = "Event" then
        xmlImportLoop localize now rest
          { st with
            in_event := true
            event_xml := "<Event>"
            fields := freshImportFields now }
      else if st.in_event then
        let x := st.event_xml ++ "<" ++ tag ++ attrsText attrs ++ ">"
        if tag = "TimeCreated" then
          xmlImportLoop localize now rest
            { st with
              event_xml := x
              fields := { st.fields with
                time_created := importTimeAttr localize attrs st.fields.time_created } }
        else if tag = "EventID" then
          match rest with
          | .tText s :: rest2 =>
              xmlImportLoop localize now rest2
                { st with
                  event_xml := x
                  fields := { st.fields with event_id := parseU16 s } }
          | _ :: rest2 => xmlImportLoop localize now rest2 { st with event_xml := x }
          | [] => st.out
        else if tag = "Level" then
          match rest with
          | .tText s :: rest2 =>
              xmlImportLoop localize now rest2
                { st with
                  event_xml := x
                  fields := { st.fields with level := s } }
          | _ :: rest2 => xmlImportLoop localize now rest2 { st with event_xml := x }
          | [] => st.out
        else if tag = "Provider" then
          xmlImportLoop localize now rest
            { st with
              event_xml := x
              fields := { st.fields with
                source := providerSource attrs st.fields.source } }
        else if tag = "Computer" then
          match rest with
          | .tText s :: rest2 =>
              xmlImportLoop localize now rest2
                { st with
                  event_xml := x
                  fields := { st.fields with computer := s } }
          | _ :: rest2 => xmlImportLoop localize now rest2 { st with event_xml := x }
          | [] => st.out
        else if tag = "UserID" then
          match rest with
          | .tText s :: rest2 =>
              xmlImportLoop localize now rest2
                { st with
                  event_xml := x
                  fields := { st.fields with user := s } }
          | _ :: rest2 => xmlImportLoop localize now rest2 { st with event_xml := x }
          | [] => st.out
        else if tag = "Data" then
          match rest with
          | .tText s :: rest2 =>
              xmlImportLoop localize now rest2
                { st with
                  event_xml := x
                  fields := { st.fields with
                    description := appendData st.fields.description s } }
          | _ :: rest2 => xmlImportLoop localize now rest2 { st with event_xml := x }
          | [] => st.out
        else
          xmlImportLoop localize now rest { st with event_xml := x }
      else xmlImportLoop localize now rest st

def initXScan (now : Timestamp) : XScanState :=
  { in_event := false, event_xml := "", fields := freshImportFields now,
    out := [] }

def xmlImportScan (localize : Int → Option Timestamp) (now : Timestamp)
    (toks : List XmlToken) : List EventRecord :=
  xmlImportLoop localize now toks (initXScan now)

/-- Environment of one import_file call: the outcomes of the file-system
and library collaborations it performs.  evtxRecords are the archive's
entries as Debug-formatted JSON text, none for an entry that failed to
decode; xmlTokens is the reader's token stream of the file contents, none
when the file cannot be opened; csvRows are the data rows after the header,
none for a malformed row, the outer none when the file cannot be opened;
localize resolves a naive local date-time to an instant (none for
LocalResult::Ambiguous or None). -/
structure ImportEnv where
  evtxOpenOk : Bool
  evtxRecords : List (Option String)
  xmlTokens : Option (List XmlToken)
  csvRows : Option (List (Option (List String)))
  now : Timestamp
  localize : Int → Option Timestamp

/-- Result of import_file: the Rust function returns unit, but an unwrap on
a file that fails to open aborts the process. -/
inductive ImportOutcome where
  | crashed
  | ok (s : EventViewerApp)
deriving DecidableEq

/-- import_file of src/main.rs lines 128-310.  paused is set first; then
dispatch on the path suffix: an openable evtx archive or csv file replaces
the filtered view with the converted records, an unopenable one leaves it
unchanged; an xml path unwraps File::open, so an unopenable xml file
crashes; any other suffix only pauses. -/
def import_file (env : ImportEnv) (path : String) (s : EventViewerApp) :
    ImportOutcome :=
  let s := { s with paused := true }
  if strEndsWith path ".evtx" then
    if env.evtxOpenOk then
      .ok { s with
        filtered_events := env.evtxRecords.filterMap
          (fun r => r.map (evtxRecord env.now)) }
    else .ok s
  else if strEndsWith path ".xml" then
    match env.xmlTokens with
    | none => .crashed
    | some toks =>
        .ok { s with
          filtered_events := xmlImportScan env.localize env.now toks }
  else if strEndsWith path ".csv" then
    match env.csvRows with
    | none => .ok s
    | some rows =>
        .ok { s with
          filtered_events := rows.filterMap (fun r => r.map (csvRecord env.now)) }
  else .ok s

/-! ### Shared helper lemmas -/

/-- Membership in the filtered view is membership in the working set
together with the retain predicate. -/
theorem mem_apply_filters {tz : Int} {f : Filters} {evs : List EventRecord}
    {e : EventRecord} :
    e ∈ apply_filters tz f evs ↔ e ∈ evs ∧ passes tz f e = true := by
  unfold apply_filters
  rw [List.mem_mergeSort, List.mem_filter]

/-! ### The claims -/

/-- C1: parse_event always produces exactly one EventRecord and never
signals failure: for every input text, token stream (malformed or
truncated included) and decode time the result is some record whose
raw_xml is the input text verbatim; a stream that fails at once yields the
all-defaults record. -/
theorem parse_event_never_fails :
    (∀ (xml : String) (toks : List XmlToken) (now : Timestamp),
      ∃ r : EventRecord, parse_event xml toks now = some r ∧ r.raw_xml = xml) ∧
    (∀ (xml : String) (now : Timestamp),
      parse_event xml [XmlToken.errTok] now =
        some { log_name := "", time_created := now, event_id := 0, level := "",
               source := "", user := "", computer := "", description := "",
               raw_xml := xml }) := by
  exact ⟨fun xml toks now => ⟨_, rfl, rfl⟩, fun xml now => rfl⟩

/-- C3: decoding a valid structured event document is deterministic.  A
document whose scan determines the creation time (the TimeCreated element
carries a parseable SystemTime, so the decode-time default is overwritten)
decodes to the same EventRecord in every field at any two decode times. -/
theorem parse_event_deterministic (xml : String) (toks : List XmlToken)
    (now₁ now₂ : Timestamp)
    (h : (scanEvent toks initScanRec).time_created.isSome = true) :
    parse_event xml toks now₁ = parse_event xml toks now₂ := by
  unfold parse_event
  cases ho : (scanEvent toks initScanRec).time_created with
  | none => rw [ho] at h; simp at h
  | some t => simp [ho]

def c3Toks : List XmlToken :=
  [XmlToken.startTag "TimeCreated" [("SystemTime", "2024-01-02T03:04:05Z")],
   XmlToken.eofTok]

theorem parse_event_deterministic_witness :
    (scanEvent c3Toks initScanRec).time_created.isSome = true ∧
    parse_event "doc" c3Toks 5 = parse_event "doc" c3Toks 99 :=
  ⟨by decide, parse_event_deterministic "doc" c3Toks 5 99 (by decide)⟩

/-- C5: the decoder's level-code mapping is total on strings: the five
numeric codes map to their severity labels and every other string is
returned unchanged. -/
theorem levelLabel_mapping :
    levelLabel "1" = "Critical" ∧ levelLabel "2" = "Error" ∧
    levelLabel "3" = "Warning" ∧ levelLabel "4" = "Information" ∧
    levelLabel "5" = "Verbose" ∧
    ∀ s : String, s ∉ (["1", "2", "3", "4", "5"] : List String) →
      levelLabel s = s := by
  refine ⟨rfl, rfl, rfl, rfl, rfl, ?_⟩
  intro s hs
  simp only [List.mem_cons, List.not_mem_nil, or_false, not_or] at hs
  obtain ⟨h1, h2, h3, h4, h5⟩ := hs
  simp [levelLabel, h1, h2, h3, h4, h5]

theorem levelLabel_mapping_witness :
    ("Critical" : String) ∉ (["1", "2", "3", "4", "5"] : List String) ∧
    levelLabel "Critical" = "Critical" :=
  ⟨by decide, levelLabel_mapping.2.2.2.2.2 "Critical" (by decide)⟩

/-- C6: for every working set and every filter criteria the filtered view
produced by apply_filters is sorted with time_created non-increasing from
front to back. -/
theorem filtered_view_sorted_desc (tz : Int) (f : Filters)
    (evs : List EventRecord) :
    (apply_filters tz f evs).Pairwise
      (fun a b => b.time_created ≤ a.time_created) := by
  have h : ((evs.filter (passes tz f)).mergeSort timeDesc).Pairwise
      (fun a b => timeDesc a b = true) :=
    List.sorted_mergeSort
      (fun a b c hab hbc => by
        simp only [timeDesc, decide_eq_true_eq] at *
        exact le_trans hbc hab)
      (fun a b => by
        simp only [timeDesc, Bool.or_eq_true, decide_eq_true_eq]
        exact le_total b.time_created a.time_created)
      (evs.filter (passes tz f))
  exact h.imp (fun hab => by
    simpa only [timeDesc, decide_eq_true_eq] using hab)

/-- C7: filter predicates are conjunctive and vacuous when unset: the
all-default criteria keep exactly the working set's records (membership
preserved), and in general a record is in the filtered view exactly when
it is in the working set and satisfies every active predicate (the
conjunction passes). -/
theorem filters_conjunctive_and_vacuous :
    (∀ (tz : Int) (evs : List EventRecord) (e : EventRecord),
      e ∈ apply_filters tz defaultFilters evs ↔ e ∈ evs) ∧
    (∀ (tz : Int) (f : Filters) (evs : List EventRecord) (e : EventRecord),
      e ∈ apply_filters tz f evs ↔ e ∈ evs ∧ passes tz f e = true) := by
  refine ⟨?_, fun tz f evs e => mem_apply_filters⟩
  intro tz evs e
  rw [mem_apply_filters]
  exact ⟨fun h => h.1, fun h => ⟨h, rfl⟩⟩

/-! ### Pipeline claims -/

def emptyApp : EventViewerApp :=
  { all_events := [], filtered_events := [], filters := defaultFilters,
    paused := false, queue := [] }

def c2Rec : EventRecord :=
  { log_name := "", time_created := 0, event_id := 0, level := "",
    source := "", user := "", computer := "", description := "", raw_xml := "" }

def c2Start : EventViewerApp := { emptyApp with paused := true }

/-- update_live is the identity on a paused app. -/
theorem update_live_of_paused {tz : Int} {s : EventViewerApp}
    (h : s.paused = true) : update_live tz s = s := by
  simp [update_live, h]

/-- Repeated producer bursts of one record grow the channel by one each
time and never touch the pause flag. -/
theorem producer_send_iterate (r : EventRecord) :
    ∀ (n : Nat) (s : EventViewerApp),
      ((producer_send [r])^[n] s).queue.length = s.queue.length + n ∧
      ((producer_send [r])^[n] s).paused = s.paused := by
  intro n
  induction n with
  | zero => intro s; simp
  | succ n ih =>
      intro s
      rw [Function.iterate_succ_apply]
      obtain ⟨h1, h2⟩ := ih (producer_send [r] s)
      refine ⟨?_, by rw [h2]; rfl⟩
      rw [h1]
      simp [producer_send]
      omega

/-- C2 counterexample: from a paused app with an empty channel, n producer
bursts of one record are all taken while paused and leave n records
queued, so no bound on the pending-record queue holds while Paused. -/
theorem paused_queue_unbounded_cex :
    (∀ n : Nat, ((producer_send [c2Rec])^[n] c2Start).paused = true) ∧
    ¬ ∃ B : Nat, ∀ n : Nat,
        ((producer_send [c2Rec])^[n] c2Start).queue.length ≤ B := by
  constructor
  · intro n
    rw [(producer_send_iterate c2Rec n c2Start).2]
    rfl
  · rintro ⟨B, hB⟩
    have h := hB (B + 1)
    rw [(producer_send_iterate c2Rec (B + 1) c2Start).1] at h
    simp [c2Start, emptyApp] at h

/-- C2 (amended): records produced by the poller while Paused never reach
the Working Set or the Filtered View before Resume — along any sequence of
consumer ticks and producer bursts taken while paused, all_events and
filtered_events are unchanged — but the pending records are left queued
(the queue only ever grows while Paused; it is not drained or discarded,
and by the counterexample it grows without bound; the first tick after
Resume then merges everything queued in bulk). -/
theorem paused_steps_leave_working_set (tz : Int) (s s2 : EventViewerApp)
    (h : Relation.ReflTransGen (PausedStep tz) s s2) :
    s2.all_events = s.all_events ∧ s2.filtered_events = s.filtered_events ∧
    ∃ q, s2.queue = s.queue ++ q := by
  induction h with
  | refl => exact ⟨rfl, rfl, [], by simp⟩
  | tail _hab hbc ih =>
      obtain ⟨ha, he, q, hq⟩ := ih
      obtain ⟨hp, hstep⟩ := hbc
      cases hstep with
      | inl h1 =>
          rw [h1, update_live_of_paused hp]
          exact ⟨ha, he, q, hq⟩
      | inr h2 =>
          obtain ⟨evs, rfl⟩ := h2
          refine ⟨ha, he, q ++ evs.reverse, ?_⟩
          simp only [producer_send]
          rw [hq, List.append_assoc]

theorem paused_steps_leave_working_set_witness :
    (producer_send [c2Rec] c2Start).all_events = c2Start.all_events ∧
    (producer_send [c2Rec] c2Start).filtered_events = c2Start.filtered_events ∧
    ∃ q, (producer_send [c2Rec] c2Start).queue = c2Start.queue ++ q :=
  paused_steps_leave_working_set 0 c2Start (producer_send [c2Rec] c2Start)
    (Relation.ReflTransGen.single ⟨rfl, Or.inr ⟨[c2Rec], rfl⟩⟩)

/-! ### Import claims -/

def c8Env : ImportEnv :=
  { evtxOpenOk := false, evtxRecords := [], xmlTokens := none, csvRows := none,
    now := 0, localize := fun _ => none }

/-- C8 (code bug): when the import file cannot be opened, the evtx and csv
paths leave the app unchanged apart from the pause flag and are non-fatal,
but the xml path unwraps the failed File::open and aborts the process. -/
theorem xml_import_open_failure_crashes :
    import_file c8Env "events.xml" emptyApp = ImportOutcome.crashed ∧
    import_file c8Env "events.evtx" emptyApp =
      ImportOutcome.ok { emptyApp with paused := true } ∧
    import_file c8Env "events.csv" emptyApp =
      ImportOutcome.ok { emptyApp with paused := true } :=
  ⟨rfl, rfl, rfl⟩

/-- C10: import_file mutates only the filtered view and the pause flag;
the working set, the criteria and the pending queue are untouched by every
non-crashing import, and any later recomputation of the filtered view from
the working set contains only records that were already in the pre-import
working set (imported records are discarded by it). -/
theorem import_file_frame (env : ImportEnv) (path : String)
    (s s2 : EventViewerApp) (h : import_file env path s = ImportOutcome.ok s2) :
    s2.all_events = s.all_events ∧ s2.filters = s.filters ∧
    s2.queue = s.queue ∧ s2.paused = true ∧
    ∀ (tz : Int) (f : Filters) (e : EventRecord),
      e ∈ apply_filters tz f s2.all_events → e ∈ s.all_events := by
  unfold import_file at h
  have hmem : ∀ (A : List EventRecord) (tz : Int) (f : Filters)
      (e : EventRecord), e ∈ apply_filters tz f A → e ∈ A :=
    fun A tz f e hm => (mem_apply_filters.mp hm).1
  split at h
  · split at h
    · cases h; exact ⟨rfl, rfl, rfl, rfl, hmem _⟩
    · cases h; exact ⟨rfl, rfl, rfl, rfl, hmem _⟩
  · split at h
    · split at h
      · cases h
      · cases h; exact ⟨rfl, rfl, rfl, rfl, hmem _⟩
    · split at h
      · split at h
        · cases h; exact ⟨rfl, rfl, rfl, rfl, hmem _⟩
        · cases h; exact ⟨rfl, rfl, rfl, rfl, hmem _⟩
      · cases h; exact ⟨rfl, rfl, rfl, rfl, hmem _⟩

def c10Env : ImportEnv :=
  { evtxOpenOk := true, evtxRecords := [some "rec1"], xmlTokens := none,
    csvRows := none, now := 7, localize := fun _ => none }

def c10Out : EventViewerApp :=
  { emptyApp with
    paused := true
    filtered_events := [evtxRecord 7 "rec1"] }

theorem import_file_frame_witness :
    c10Out.all_events = emptyApp.all_events ∧
    c10Out.filters = emptyApp.filters ∧
    c10Out.queue = emptyApp.queue ∧ c10Out.paused = true ∧
    ∀ (tz : Int) (f : Filters) (e : EventRecord),
      e ∈ apply_filters tz f c10Out.all_events → e ∈ emptyApp.all_events :=
  import_file_frame c10Env "log.evtx" emptyApp c10Out (by rfl)

/-! ### Decoder versus importer claims -/

def c9Toks : List XmlToken :=
  [.startTag "Event" [], .startTag "Level" [], .tText "2", .endTag "Level",
   .endTag "Event", .eofTok]

/-- C9 counterexample: on an event whose Level element text is the code 2,
the XML export importer records the level 2 verbatim, while the
single-event decoder of the same document produces the label Error. -/
theorem importer_level_unmapped_cex :
    (xmlImportScan (fun n => some n) 0 c9Toks).map (fun r => r.level) =
      ["2"] ∧
    (parse_event "<Event><Level>2</Level></Event>" c9Toks 0).map
      (fun r => r.level) = some "Error" ∧
    ("2" : String) ≠ "Error" :=
  ⟨rfl, rfl, by decide⟩

def eventLevelToks (s : String) : List XmlToken :=
  [.startTag "Event" [], .startTag "Level" [], .tText s, .endTag "Level",
   .endTag "Event", .eofTok]

/-- C9 (amended): the XML export importer stores the Level element text
verbatim, without the severity mapping, while the single-event decoder of
the same document maps it through the fixed severity vocabulary; the two
agree only after applying that mapping to the importer's raw code. -/
theorem importer_level_verbatim (s : String)
    (localize : Int → Option Timestamp) (now : Timestamp) (xml : String)
    (now2 : Timestamp) :
    (xmlImportScan localize now (eventLevelToks s)).map (fun r => r.level) =
      [s] ∧
    (parse_event xml (eventLevelToks s) now2).map (fun r => r.level) =
      some (levelLabel s) :=
  ⟨rfl, rfl⟩

/-- The SystemTime strategy exactly as claim C4 describes it for the
decoder: RFC3339 first, then the naive local format resolved in the local
timezone with UNIX-epoch fallback for ambiguous or invalid local times,
and the decode time when the attribute is absent or nothing parses.
Stated only for comparison against the code's actual behavior. -/
def claimedTimeCreated (localize : Int → Option Timestamp) (now : Timestamp) :
    Option String → Timestamp
  | none => now
  | some v =>
    match rfc3339ToEpoch v with
    | some t => t
    | none =>
      match naiveParse v with
      | some n => (localize n).getD 0
      | none => now

def tcDecoderToks (v : String) : List XmlToken :=
  [.startTag "TimeCreated" [("SystemTime", v)], .eofTok]

def tcImporterToks (v : String) : List XmlToken :=
  [.startTag "Event" [], .startTag "TimeCreated" [("SystemTime", v)],
   .endTag "TimeCreated", .endTag "Event", .eofTok]

/-- C4 counterexample: on the naive-format attribute value
2024-03-05 06:07:08.5 the decoder parse_event keeps the decode-time
default (999 here), while the strategy the claim describes yields the
naive local instant 1709618828 whatever the decode time is. -/
theorem decoder_time_no_naive_fallback_cex :
    (parse_event "d" (tcDecoderToks "2024-03-05 06:07:08.5") 999).map
        (fun r => r.time_created) = some 999 ∧
    claimedTimeCreated (fun n => some n) 999 (some "2024-03-05 06:07:08.5") =
      1709618828 ∧
    (1709618828 : Int) ≠ 999 :=
  ⟨rfl, rfl, by decide⟩

/-- C4 (amended): the single-event decoder parses a SystemTime attribute
only as RFC3339 and otherwise keeps the decode-time default; the
first-RFC3339-then-naive-local strategy with epoch fallback that the claim
describes is implemented by the XML export importer, not the decoder. -/
theorem time_parsing_decoder_vs_importer :
    (∀ (v : String) (now : Timestamp),
      (parse_event "d" (tcDecoderToks v) now).map (fun r => r.time_created) =
        some ((rfc3339ToEpoch v).getD now)) ∧
    (∀ (v : String) (localize : Int → Option Timestamp) (now : Timestamp),
      (xmlImportScan localize now (tcImporterToks v)).map
          (fun r => r.time_created) =
        [claimedTimeCreated localize now (some v)]) := by
  constructor
  · intro v now
    cases h : rfc3339ToEpoch v <;>
      simp [parse_event, tcDecoderToks, scanEvent, timeCreatedAttr,
        initScanRec, h]
  · intro v localize now
    have key : (xmlImportScan localize now (tcImporterToks v)).map
        (fun r => r.time_created) =
        [importTimeAttr localize [("SystemTime", v)] now] := rfl
    have key2 : importTimeAttr localize [("SystemTime", v)] now =
        claimedTimeCreated localize now (some v) := rfl
    rw [key, key2]

end EventViewer
